import Mathlib

/-!
Verification of the Mind Scout batch-processing pipeline.

This file gives a shallow embedding of the parts of the repository that the
spec's batch pipeline talks about:

* `mindscout/processors/content.py` — `ContentProcessor.apply_batch_results`,
  `ContentProcessor.create_async_batch`, `ContentProcessor._create_interest_notification`;
* `mindscout/processors/llm.py` — `LLMClient.get_batch_results`;
* `backend/scheduler/jobs.py` — `check_pending_batches_job` (the poller tick)
  and the batch-creation step of `fetch_and_process_job`.

Modelling conventions:

* SQLAlchemy rows become Lean structures; the session's staged state is an
  explicit `DBState` threaded through each loop, and the single
  `session.commit()` / `session.rollback()` pair of `apply_batch_results`
  becomes a `committed` flag: on an exception the function returns the
  original state (rollback discards staged mutations).
* `article.topics` is stored in the database as a JSON string produced by
  `json.dumps` on a list of strings and read back with `json.loads`; since the
  round trip is the identity on lists of strings we model the field directly
  as `Option (List String)`.
* Python string primitives (`split`, `strip`, `lower`, `len`, `int`) are
  modelled by executable character-level functions `py_split`, `py_strip`,
  `py_lower`, `py_len`, `py_int?` below, so that every definition evaluates
  inside the kernel.  `py_int?` covers the non-negative decimal literals that
  `str(article.id)` produces; any other key makes `int(article_id)` raise
  `ValueError`, modelled as `none`.
* Timestamps (`datetime.utcnow()`) are abstract `Nat` instants passed in as
  `now`.
-/

/-- ASCII whitespace recognised by Python's `str.strip()` (the characters
that actually occur in this pipeline's data). -/
def is_space (c : Char) : Bool :=
  c = ' ' || c = '\t' || c = '\n' || c = '\r'

/-- Splitting a character list on a separator character, keeping empty
pieces, as Python's `str.split(sep)` does for a one-character `sep`. -/
def split_char_aux (c : Char) : List Char → List Char → List (List Char)
  | [], acc => [acc.reverse]
  | x :: xs, acc =>
    if x = c then acc.reverse :: split_char_aux c xs []
    else split_char_aux c xs (x :: acc)

/-- Python `s.split(c)` for a single-character separator. -/
def py_split (c : Char) (s : String) : List String :=
  (split_char_aux c s.data []).map (fun l => String.mk l)

/-- Python `s.strip()`. -/
def py_strip (s : String) : String :=
  String.mk (((s.data.dropWhile is_space).reverse.dropWhile is_space).reverse)

/-- Lower-casing of one ASCII character, as `str.lower()` acts on the
topic and interest strings of this repository. -/
def lower_char (c : Char) : Char :=
  if c.isUpper then Char.ofNat (c.toNat + 32) else c

/-- Python `s.lower()`. -/
def py_lower (s : String) : String := String.mk (s.data.map lower_char)

/-- Python `len(s)`. -/
def py_len (s : String) : Nat := s.data.length

/-- Value of a digit string. -/
def digits_val : List Char → Nat → Nat
  | [], acc => acc
  | c :: cs, acc => digits_val cs (acc * 10 + (c.toNat - 48))

/-- Python `int(s)` for the non-negative decimal keys this pipeline
produces; `none` models the `ValueError` raised on anything else. -/
def py_int? (s : String) : Option Nat :=
  let l := (py_strip s).data
  if l ≠ [] && l.all Char.isDigit then some (digits_val l 0) else none

/-- Row of the `articles` table (the fields the pipeline reads or writes). -/
structure Article where
  id : Nat
  title : String
  abstract : Option String
  topics : Option (List String)
  processed : Bool
  processing_date : Option Nat
deriving DecidableEq

/-- Row of the `notifications` table (fields used by the interest notifier). -/
structure Notification where
  article_id : Nat
  type : String
deriving DecidableEq

/-- Row of the `pending_batches` table. -/
structure PendingBatch where
  batch_id : String
  status : String
  created_date : Nat
  error_message : Option String
  completed_date : Option Nat
deriving DecidableEq

/-- The session-visible database state threaded through one call. -/
structure DBState where
  articles : List Article
  notifs : List Notification
deriving DecidableEq

/-- `{i.strip().lower() for i in interests.split(",") if i.strip()}` from
`_create_interest_notification` (content.py line 367), as a list. -/
def parse_interests (s : String) : List String :=
  ((py_split ',' s).filter (fun i => py_strip i ≠ "")).map
    (fun i => py_lower (py_strip i))

/-- `session.query(Article).filter_by(id=aid).first()` on the staged state:
the first stored row whose primary key is `aid`. -/
def find_article : List Article → Nat → Option Article
  | [], _ => none
  | a :: rest, aid => if a.id = aid then some a else find_article rest aid

/-- In-place mutation of the ORM row with id `a.id`: every stored row with
that primary key (unique in the real database) now reads as `a`. -/
def set_article : List Article → Article → List Article
  | [], _ => []
  | b :: rest, a => (if b.id = a.id then a else b) :: set_article rest a

/-- `ContentProcessor._create_interest_notification` (content.py 351-396).
`profile` is the `interests` column of the first `UserProfile` row: `none`
when there is no row or the column is NULL, `some s` otherwise.  Returns the
Python return value and the staged notification list. -/
def create_interest_notification (profile : Option String) (a : Article)
    (notifs : List Notification) : Bool × List Notification :=
  match profile with
  | none => (false, notifs)
  | some interests =>
    if interests = "" then (false, notifs)
    else
      let user_interests := parse_interests interests
      if user_interests.isEmpty then (false, notifs)
      else
        let article_topics := a.topics.getD []
        let topics_lower := article_topics.map py_lower
        if user_interests.any (fun i => topics_lower.any (fun t => t = i)) then
          if notifs.any (fun n => n.article_id = a.id && n.type = "interest_match") then
            (false, notifs)
          else
            (true, notifs ++ [⟨a.id, "interest_match"⟩])
        else (false, notifs)

/-- The mutation applied to a found article in the success arm of the
`apply_batch_results` loop (content.py 292-294): store the topics, mark
processed, stamp the processing date. -/
def updated_article (now : Nat) (a : Article) (ts : List String) : Article :=
  { a with topics := some ts, processed := true, processing_date := some now }

/-- One success-arm iteration of the `apply_batch_results` loop: persist the
updated article row and run the interest notifier on it (content.py 292-298). -/
def apply_step (now : Nat) (profile : Option String) (db : DBState)
    (a : Article) (ts : List String) : DBState :=
  ⟨set_article db.articles (updated_article now a ts),
   (create_interest_notification profile (updated_article now a ts) db.notifs).2⟩

/-- The `for article_id, topics in results.items()` loop of
`ContentProcessor.apply_batch_results` (content.py 285-300).  Returns the
staged state (`none` when `int(article_id)` raised) and the two counters
accumulated so far. -/
def apply_results_loop (now : Nat) (profile : Option String) :
    List (String × List String) → DBState → Nat → Nat →
      Option DBState × Nat × Nat
  | [], db, u, f => (some db, u, f)
  | (aid_str, topics) :: rest, db, u, f =>
    match py_int? aid_str with
    | none => (none, u, f)
    | some aid =>
      match find_article db.articles aid with
      | none => apply_results_loop now profile rest db u (f + 1)
      | some a =>
        if topics.isEmpty then apply_results_loop now profile rest db u (f + 1)
        else apply_results_loop now profile rest
          (apply_step now profile db a topics) (u + 1) f

/-- Result of one `apply_batch_results` call: the persisted state, the
returned `(updated_count, failed_count)` pair, and whether the single
`session.commit()` at the end was reached (`false` = the exception handler
ran `session.rollback()`). -/
structure ApplyResult where
  db : DBState
  updated : Nat
  failed : Nat
  committed : Bool
deriving DecidableEq

/-- `ContentProcessor.apply_batch_results` (content.py 266-310), given the
already-fetched provider results.  One commit after the whole loop; any
exception inside the loop rolls every staged mutation back but the counter
values accumulated before the exception are still returned. -/
def apply_batch_results (now : Nat) (profile : Option String)
    (results : List (String × List String)) (db : DBState) : ApplyResult :=
  match apply_results_loop now profile results db 0 0 with
  | (some db2, u, f) => ⟨db2, u, f, true⟩
  | (none, u, f) => ⟨db, u, f, false⟩

/-- One entry of `client.messages.batches.results(batch_id)`: the custom id,
`entry.result.type`, and the text payload of the first content block. -/
structure BatchResultEntry where
  custom_id : String
  result_type : String
  text : String
deriving DecidableEq

/-- The comma-split topic parsing of `LLMClient.get_batch_results`
(llm.py 311-312): strip each piece, keep nonempty pieces longer than two
characters, cap at five. -/
def parse_topic_text (s : String) : List String :=
  (((py_split ',' s).map py_strip).filter
    (fun t => t ≠ "" && py_len t > 2)).take 5

/-- `LLMClient.get_batch_results` (llm.py 295-318): each entry is handled on
its own; a non-succeeded entry contributes an empty topic list for that
article id only. -/
def get_batch_results (entries : List BatchResultEntry) :
    List (String × List String) :=
  entries.map (fun e =>
    if e.result_type = "succeeded" then (e.custom_id, parse_topic_text e.text)
    else (e.custom_id, []))

/-- Python truthiness of the `if limit:` guards in content.py: `None` and `0`
both leave the query uncapped. -/
def apply_limit (limit : Option Nat) (xs : List Article) : List Article :=
  match limit with
  | none => xs
  | some l => if l = 0 then xs else xs.take l

/-- The selection query of `ContentProcessor.create_async_batch`
(content.py 239-244): `filter(Article.processed == False)` then `limit`. -/
def select_unprocessed (limit : Option Nat) (articles : List Article) :
    List Article :=
  apply_limit limit (articles.filter (fun a => !a.processed))

/-- `ContentProcessor.create_async_batch` (content.py 221-264), abstracted
over the provider: returns the ids submitted as the batch's `custom_id`s, or
the `ValueError` raised when no unprocessed article exists. -/
def create_async_batch (limit : Option Nat) (articles : List Article) :
    Except String (List Nat) :=
  let sel := select_unprocessed limit articles
  if sel.isEmpty then Except.error "No unprocessed articles found"
  else Except.ok (sel.map (fun a => a.id))

/-- Scheduler-level state: the article store plus the batch ledger, where
each ledger entry pairs the persisted `PendingBatch` row with the article ids
its provider-side batch references (the submitted `custom_id`s). -/
structure SchedState where
  articles : List Article
  ledger : List (PendingBatch × List Nat)
deriving DecidableEq

/-- Step 4 of `fetch_and_process_job` (jobs.py 101-137): if any unprocessed
article exists, create an async batch over up to 100 of them and persist a
`PendingBatch{status="pending"}` row for it. -/
def batch_creation_step (new_id : String) (now : Nat) (st : SchedState) :
    SchedState :=
  if (st.articles.filter (fun a => !a.processed)).length > 0 then
    match create_async_batch (some 100) st.articles with
    | Except.ok ids =>
      { st with ledger := st.ledger ++ [(⟨new_id, "pending", now, none, none⟩, ids)] }
    | Except.error _ => st
  else st

/-- Number of open (pending or processing) ledger entries whose provider
batch references article `i`. -/
def open_jobs_referencing (st : SchedState) (i : Nat) : Nat :=
  (st.ledger.filter (fun e =>
    (e.1.status = "pending" || e.1.status = "processing") &&
      e.2.any (fun j => j = i))).length

/-- Statuses selected by the poller's query
`PendingBatch.status.in_(["pending", "processing"])` (jobs.py 183-187). -/
def is_open_status (s : String) : Bool :=
  s = "pending" || s = "processing"

/-- The per-batch body of the `for batch in pending_batches` loop of
`check_pending_batches_job` (jobs.py 189-229).  `outcome` is what
`llm.get_batch_status(batch.batch_id)` did: `Except.ok st` when it returned
provider status `st`, `Except.error e` when it raised — the `except` arm
then only records `error_message = str(e)` and leaves the status alone. -/
def tick_one (now : Nat) (outcome : Except String String) (b : PendingBatch) :
    PendingBatch :=
  match outcome with
  | Except.error e => { b with error_message := some e }
  | Except.ok st =>
    if st = "ended" then
      { b with status := "completed", completed_date := some now }
    else if st = "failed" || st = "expired" || st = "canceled" then
      { b with status := "failed", error_message := some ("Batch " ++ st),
               completed_date := some now }
    else
      { b with status := "processing" }

/-- How one `Tick()` treats a single stored batch row: rows outside
{pending, processing} are not selected and stay untouched. -/
def tick_step (now : Nat) (get_status : String → Except String String)
    (b : PendingBatch) : PendingBatch :=
  if is_open_status b.status then tick_one now (get_status b.batch_id) b else b

/-- One full `check_pending_batches_job` run over the ledger's batch rows. -/
def tick (now : Nat) (get_status : String → Except String String)
    (batches : List PendingBatch) : List PendingBatch :=
  batches.map (tick_step now get_status)

/-- A sequence of `Tick()` invocations, each with its own clock and its own
provider behaviour, folded over one batch row. -/
def tick_step_seq (steps : List (Nat × (String → Except String String)))
    (b : PendingBatch) : PendingBatch :=
  steps.foldl (fun acc s => tick_step s.1 s.2 acc) b

/-- A sequence of `Tick()` invocations folded over the whole ledger. -/
def tick_seq (steps : List (Nat × (String → Except String String)))
    (batches : List PendingBatch) : List PendingBatch :=
  steps.foldl (fun acc s => tick s.1 s.2 acc) batches

/-- Rank of a batch status along the lifecycle chain
pending → processing → {completed, failed}. -/
def status_rank (s : String) : Nat :=
  if s = "pending" then 0
  else if s = "processing" then 1
  else if s = "completed" then 2
  else if s = "failed" then 2
  else 0

/-- An article with its `processing_date` erased: the part of the row the
idempotence statements compare. -/
def article_sans_date (a : Article) : Article :=
  { a with processing_date := none }

/-- The matching condition of `_create_interest_notification`: a profile is
present, its parsed interest set is non-empty, and it meets the
lower-cased topics. -/
def profile_matches (profile : Option String) (topics : List String) : Bool :=
  match profile with
  | none => false
  | some interests =>
    if interests = "" then false
    else
      let user_interests := parse_interests interests
      if user_interests.isEmpty then false
      else
        user_interests.any (fun i => (topics.map py_lower).any (fun t => t = i))

/-- Whether an `interest_match` notification for article `aid` exists. -/
def has_interest_notif (notifs : List Notification) (aid : Nat) : Bool :=
  notifs.any (fun n => n.article_id = aid && n.type = "interest_match")

/-- Number of `interest_match` notifications recorded for article `aid`. -/
def count_interest_notifs (notifs : List Notification) (aid : Nat) : Nat :=
  (notifs.filter (fun n => n.article_id = aid && n.type = "interest_match")).length

/-- A provider that always answers with a still-in-progress status. -/
def g_in_progress : String → Except String String :=
  fun _ => Except.ok "in_progress"

/-- A provider that always answers with the terminal-failure status. -/
def g_failed_resp : String → Except String String :=
  fun _ => Except.ok "failed"

/-- Ten unprocessed articles for the partial-isolation scenario. -/
def c6_db : DBState :=
  ⟨[⟨1, "a1", none, none, false, none⟩,
    ⟨2, "a2", none, none, false, none⟩,
    ⟨3, "a3", none, none, false, none⟩,
    ⟨4, "a4", none, none, false, none⟩,
    ⟨5, "a5", none, none, false, none⟩,
    ⟨6, "a6", none, none, false, none⟩,
    ⟨7, "a7", none, none, false, none⟩,
    ⟨8, "a8", none, none, false, none⟩,
    ⟨9, "a9", none, none, false, none⟩,
    ⟨10, "a10", none, none, false, none⟩], []⟩

/-- Provider result set: eight succeeded entries with parseable topics and
two errored entries. -/
def c6_entries : List BatchResultEntry :=
  [⟨"1", "succeeded", "machine learning, vision"⟩,
   ⟨"2", "succeeded", "language models, parsing"⟩,
   ⟨"3", "succeeded", "robotics, control"⟩,
   ⟨"4", "succeeded", "graph networks"⟩,
   ⟨"5", "succeeded", "optimization, convexity"⟩,
   ⟨"6", "succeeded", "statistics, sampling"⟩,
   ⟨"7", "succeeded", "systems, compilers"⟩,
   ⟨"8", "succeeded", "databases, indexing"⟩,
   ⟨"9", "errored", ""⟩,
   ⟨"10", "errored", ""⟩]

/-- The article ids that `int(article_id)` can parse out of a result set, in
order (the ids the apply loop will actually look up). -/
def parsed_ids : List (String × List String) → List Nat
  | [] => []
  | r :: rest =>
    match py_int? r.1 with
    | none => parsed_ids rest
    | some aid => aid :: parsed_ids rest

/-- After a committed apply run, the store reflects every (parseable,
non-empty-topics) entry of the result set: the referenced article — if it
exists — carries exactly those topics, is processed, and, when the topics
match the profile, has an `interest_match` notification. -/
def AppliedFor (p : Option String) (results : List (String × List String))
    (db : DBState) : Prop :=
  ∀ s ts aid a, (s, ts) ∈ results → py_int? s = some aid →
    ts.isEmpty = false → find_article db.articles aid = some a →
    a.topics = some ts ∧ a.processed = true ∧
      (profile_matches p ts = true → has_interest_notif db.notifs aid = true)

example : parse_interests "Machine Learning, , ai " = ["machine learning", "ai"] := by decide

example : parse_topic_text " machine learning, ai, deep nets " =
    ["machine learning", "deep nets"] := by decide

example :
    apply_batch_results 7 none [("1", ["machine learning"])]
      ⟨[⟨1, "t", none, none, false, none⟩], []⟩ =
    ⟨⟨[⟨1, "t", none, some ["machine learning"], true, some 7⟩], []⟩, 1, 0, true⟩ := by
  decide

lemma is_open_status_iff (s : String) :
    is_open_status s = true ↔ s = "pending" ∨ s = "processing" := by
  simp [is_open_status]

lemma status_rank_le_two (s : String) : status_rank s ≤ 2 := by
  unfold status_rank
  split_ifs <;> omega

lemma tick_step_terminal (now : Nat) (g : String → Except String String)
    (b : PendingBatch) (h : b.status = "completed" ∨ b.status = "failed") :
    tick_step now g b = b := by
  have hopen : is_open_status b.status = false := by
    rcases h with h | h <;> rw [h] <;> decide
  simp [tick_step, hopen]

lemma tick_step_rank_mono (now : Nat) (g : String → Except String String)
    (b : PendingBatch) :
    status_rank b.status ≤ status_rank ((tick_step now g b).status) := by
  by_cases hopen : is_open_status b.status = true
  · have hps := (is_open_status_iff b.status).mp hopen
    simp only [tick_step, hopen, if_true]
    cases hg : g b.batch_id with
    | error e => simp [tick_one]
    | ok st =>
      simp only [tick_one]
      split_ifs with h1 h2
      · exact status_rank_le_two _
      · exact status_rank_le_two _
      · rcases hps with h | h <;> simp [h, status_rank]
  · have : is_open_status b.status = false := by
      cases hb : is_open_status b.status
      · rfl
      · exact absurd hb hopen
    simp [tick_step, this]

lemma tick_seq_eq_map (steps : List (Nat × (String → Except String String))) :
    ∀ bs : List PendingBatch, tick_seq steps bs = bs.map (tick_step_seq steps) := by
  induction steps with
  | nil =>
    intro bs
    have h : tick_step_seq ([] : List (Nat × (String → Except String String)))
        = fun b => b := rfl
    simp only [tick_seq, List.foldl_nil, h, List.map_id']
  | cons s ss ih =>
    intro bs
    show tick_seq ss (tick s.1 s.2 bs) = _
    rw [ih]
    simp only [tick, List.map_map]
    rfl

lemma tick_step_seq_terminal (steps : List (Nat × (String → Except String String)))
    (b : PendingBatch) (h : b.status = "completed" ∨ b.status = "failed") :
    tick_step_seq steps b = b := by
  induction steps with
  | nil => rfl
  | cons s ss ih =>
    show tick_step_seq ss (tick_step s.1 s.2 b) = b
    rw [tick_step_terminal s.1 s.2 b h]
    exact ih

/-- C5: batch status is monotone along pending → processing → {completed,
failed}: every single tick weakly increases the status rank, a tick acts on
each stored row independently (so a sequence of ticks acts row-wise), and a
row that is already `completed` or `failed` is never selected again — no
sequence of `Tick()` invocations changes it (terminal states absorb). -/
theorem C5_monotonic_status :
    (∀ (now : Nat) (g : String → Except String String) (b : PendingBatch),
        status_rank b.status ≤ status_rank ((tick_step now g b).status))
    ∧ (∀ (steps : List (Nat × (String → Except String String)))
          (bs : List PendingBatch),
        tick_seq steps bs = bs.map (tick_step_seq steps))
    ∧ (∀ (steps : List (Nat × (String → Except String String)))
          (b : PendingBatch),
        b.status = "completed" ∨ b.status = "failed" →
        tick_step_seq steps b = b) :=
  ⟨tick_step_rank_mono, tick_seq_eq_map,
    fun steps b h => tick_step_seq_terminal steps b h⟩

theorem C5_witness :
    tick_step_seq [(5, g_failed_resp)] ⟨"b1", "completed", 0, none, none⟩
      = ⟨"b1", "completed", 0, none, none⟩ :=
  C5_monotonic_status.2.2 [(5, g_failed_resp)]
    ⟨"b1", "completed", 0, none, none⟩ (Or.inl rfl)

/-- C7: per-job failure isolation inside one tick.  A tick maps each stored
row independently, so an exception in job `a`'s status check (recorded in
`error_message`) leaves `a` pending, does not stop job `b` in the same tick
from completing, and `a` — still pending — completes on a later tick whose
status check succeeds. -/
theorem C7_failure_isolation (now now2 : Nat)
    (g g2 : String → Except String String) (bs1 bs2 : List PendingBatch)
    (a b : PendingBatch) (e : String)
    (ha : a.status = "pending") (hga : g a.batch_id = Except.error e)
    (hb : b.status = "pending") (hgb : g b.batch_id = Except.ok "ended")
    (hg2 : g2 a.batch_id = Except.ok "ended") :
    tick now g (bs1 ++ a :: b :: bs2)
      = tick now g bs1 ++ tick_step now g a :: tick_step now g b :: tick now g bs2
    ∧ (tick_step now g a).status = "pending"
    ∧ (tick_step now g a).error_message = some e
    ∧ (tick_step now g b).status = "completed"
    ∧ (tick_step now2 g2 (tick_step now g a)).status = "completed" := by
  refine ⟨by simp [tick], ?_, ?_, ?_, ?_⟩
  · simp [tick_step, is_open_status, ha, hga, tick_one]
  · simp [tick_step, is_open_status, ha, hga, tick_one]
  · simp [tick_step, is_open_status, hb, hgb, tick_one]
  · have h1 : tick_step now g a = { a with error_message := some e } := by
      simp [tick_step, is_open_status, ha, hga, tick_one]
    rw [h1]
    simp [tick_step, is_open_status, ha, hg2, tick_one]

theorem C7_witness :
    tick 0 (fun s => if s = "A" then Except.error "boom" else Except.ok "ended")
      [⟨"A", "pending", 0, none, none⟩, ⟨"B", "pending", 0, none, none⟩]
      = tick 0 (fun s => if s = "A" then Except.error "boom" else Except.ok "ended") []
        ++ tick_step 0 (fun s => if s = "A" then Except.error "boom" else Except.ok "ended")
            ⟨"A", "pending", 0, none, none⟩
          :: tick_step 0 (fun s => if s = "A" then Except.error "boom" else Except.ok "ended")
            ⟨"B", "pending", 0, none, none⟩
          :: tick 0 (fun s => if s = "A" then Except.error "boom" else Except.ok "ended") []
    ∧ (tick_step 0 (fun s => if s = "A" then Except.error "boom" else Except.ok "ended")
        ⟨"A", "pending", 0, none, none⟩).status = "pending"
    ∧ (tick_step 0 (fun s => if s = "A" then Except.error "boom" else Except.ok "ended")
        ⟨"A", "pending", 0, none, none⟩).error_message = some "boom"
    ∧ (tick_step 0 (fun s => if s = "A" then Except.error "boom" else Except.ok "ended")
        ⟨"B", "pending", 0, none, none⟩).status = "completed"
    ∧ (tick_step 1 (fun _ => Except.ok "ended")
        (tick_step 0 (fun s => if s = "A" then Except.error "boom" else Except.ok "ended")
          ⟨"A", "pending", 0, none, none⟩)).status = "completed" :=
  C7_failure_isolation 0 1
    (fun s => if s = "A" then Except.error "boom" else Except.ok "ended")
    (fun _ => Except.ok "ended") [] []
    ⟨"A", "pending", 0, none, none⟩ ⟨"B", "pending", 0, none, none⟩ "boom"
    rfl rfl rfl rfl rfl

/-- C3 (counterexample): a job created at time 0 and still `processing` at
time 100000000 — far older than any plausible configured maximum age — is
NOT marked failed by the next tick when the provider still reports an
in-progress status: it stays `processing` and no
`error_message = "exceeded_max_age"` is ever written. -/
theorem C3_counterexample :
    (tick_step 100000000 g_in_progress ⟨"b1", "processing", 0, none, none⟩).status
        = "processing"
    ∧ ¬ ((tick_step 100000000 g_in_progress
          ⟨"b1", "processing", 0, none, none⟩).status = "failed")
    ∧ ¬ ((tick_step 100000000 g_in_progress
          ⟨"b1", "processing", 0, none, none⟩).error_message
        = some "exceeded_max_age") := by
  decide

/-- C3 (amended): `check_pending_batches_job` applies no age policy at all.
The handling of an open job never reads `created_date`: whenever the provider
reports a non-terminal status, the job is set to `processing` and its
`error_message` is left unchanged, whatever its age. -/
theorem C3_amended (now d : Nat) (g : String → Except String String)
    (b : PendingBatch) (st : String)
    (hopen : is_open_status b.status = true)
    (hg : g b.batch_id = Except.ok st)
    (h1 : st ≠ "ended") (h2 : st ≠ "failed") (h3 : st ≠ "expired")
    (h4 : st ≠ "canceled") :
    (tick_step now g { b with created_date := d }).status = "processing"
    ∧ (tick_step now g { b with created_date := d }).error_message
        = b.error_message := by
  have hopen2 : is_open_status ({ b with created_date := d } : PendingBatch).status = true := hopen
  simp [tick_step, hopen2, hg, tick_one, h1, h2, h3, h4]

theorem C3_amended_witness :
    (tick_step 100000000 g_in_progress
      ⟨"b2", "pending", 0, none, none⟩).status = "processing"
    ∧ (tick_step 100000000 g_in_progress
        ⟨"b2", "pending", 0, none, none⟩).error_message = none :=
  C3_amended 100000000 0 g_in_progress ⟨"b2", "pending", 0, none, none⟩
    "in_progress" rfl rfl (by decide) (by decide) (by decide) (by decide)

/-- C2 (counterexample): one unprocessed article, and the daily batch
creation run twice with no intervening status change.  The selection query
filters only on `processed == False`, so the second run submits the same
article again: two open (pending) jobs reference article 1, violating the
claimed at-most-one-open-batch property. -/
theorem C2_counterexample :
    open_jobs_referencing
        (batch_creation_step "b2" 1 (batch_creation_step "b1" 0
          ⟨[⟨1, "t", none, none, false, none⟩], []⟩)) 1 = 2
    ∧ ¬ (open_jobs_referencing
        (batch_creation_step "b2" 1 (batch_creation_step "b1" 0
          ⟨[⟨1, "t", none, none, false, none⟩], []⟩)) 1 ≤ 1) := by
  decide

/-- C2 (amended): batch creation selects items with `processed = false`
(capped at 100) and consults no batch ledger at all: whenever any unprocessed
article exists, two back-to-back creation runs append two open pending jobs
that reference exactly the same item ids. -/
theorem C2_amended (st : SchedState) (id1 id2 : String) (n1 n2 : Nat)
    (h : st.articles.filter (fun a => !a.processed) ≠ []) :
    ∃ ids : List Nat, ids ≠ []
      ∧ create_async_batch (some 100) st.articles = Except.ok ids
      ∧ (batch_creation_step id2 n2 (batch_creation_step id1 n1 st)).ledger
          = st.ledger ++ [(⟨id1, "pending", n1, none, none⟩, ids),
                          (⟨id2, "pending", n2, none, none⟩, ids)] := by
  have hsel : select_unprocessed (some 100) st.articles
      = (st.articles.filter (fun a => !a.processed)).take 100 := by
    simp [select_unprocessed, apply_limit]
  have hne : (st.articles.filter (fun a => !a.processed)).take 100 ≠ [] := by
    cases hcase : st.articles.filter (fun a => !a.processed) with
    | nil => exact absurd hcase h
    | cons x xs => simp
  have hempty : (select_unprocessed (some 100) st.articles).isEmpty = false := by
    rw [hsel]
    cases hcase : (st.articles.filter (fun a => !a.processed)).take 100 with
    | nil => exact absurd hcase hne
    | cons x xs => rfl
  have hcreate : create_async_batch (some 100) st.articles
      = Except.ok ((select_unprocessed (some 100) st.articles).map (fun a => a.id)) := by
    simp [create_async_batch, hempty]
  have hlen : (st.articles.filter (fun a => !a.processed)).length > 0 :=
    List.length_pos.mpr h
  refine ⟨(select_unprocessed (some 100) st.articles).map (fun a => a.id),
    ?_, hcreate, ?_⟩
  · rw [hsel]
    intro hmap
    exact hne (List.map_eq_nil_iff.mp hmap)
  · have hstep1 : batch_creation_step id1 n1 st
        = { st with ledger := st.ledger ++
            [(⟨id1, "pending", n1, none, none⟩,
              (select_unprocessed (some 100) st.articles).map (fun a => a.id))] } := by
      unfold batch_creation_step
      rw [if_pos hlen, hcreate]
    set st1 := batch_creation_step id1 n1 st with hst1def
    have harts : st1.articles = st.articles := by rw [hstep1]
    have hledger1 : st1.ledger = st.ledger ++
        [(⟨id1, "pending", n1, none, none⟩,
          (select_unprocessed (some 100) st.articles).map (fun a => a.id))] := by
      rw [hstep1]
    have hstep2 : batch_creation_step id2 n2 st1
        = { st1 with ledger := st1.ledger ++
            [(⟨id2, "pending", n2, none, none⟩,
              (select_unprocessed (some 100) st.articles).map (fun a => a.id))] } := by
      unfold batch_creation_step
      rw [harts, if_pos hlen, hcreate]
    rw [hstep2]
    show st1.ledger ++ _ = _
    rw [hledger1, List.append_assoc]
    rfl

theorem C2_amended_witness :
    ∃ ids : List Nat, ids ≠ []
      ∧ create_async_batch (some 100)
          ([⟨1, "t", none, none, false, none⟩] : List Article) = Except.ok ids
      ∧ (batch_creation_step "b2" 1 (batch_creation_step "b1" 0
          ⟨[⟨1, "t", none, none, false, none⟩], []⟩)).ledger
          = ([] : List (PendingBatch × List Nat)) ++
            [(⟨"b1", "pending", 0, none, none⟩, ids),
             (⟨"b2", "pending", 1, none, none⟩, ids)] :=
  C2_amended ⟨[⟨1, "t", none, none, false, none⟩], []⟩ "b1" "b2" 0 1 (by decide)

/-- C4 (counterexample): the async result fetch `get_batch_results` does NOT
strip markdown code fences before decoding: a succeeded entry whose payload
is wrapped in a ```json fence is comma-split as-is, and the fence characters
survive into the stored topic strings. -/
theorem C4_counterexample :
    get_batch_results
        [⟨"1", "succeeded", "```json\nmachine learning, deep learning```"⟩]
      = [("1", ["```json\nmachine learning", "deep learning```"])] := by
  decide

/-- C4 (amended): `get_batch_results` handles each fetched entry on its own
(by plain comma-splitting, with no fence stripping and no decode step that
could fail): an entry whose provider result type is not `succeeded` yields an
empty topic list for that article id only, and the results of every other
entry in the same batch are produced exactly as if the failing entry were
absent — a bad entry never aborts the fetch. -/
theorem C4_amended (es1 es2 : List BatchResultEntry) (e : BatchResultEntry)
    (h : e.result_type ≠ "succeeded") :
    get_batch_results (es1 ++ e :: es2)
      = get_batch_results es1
        ++ ((e.custom_id, ([] : List String)) :: get_batch_results es2) := by
  simp [get_batch_results, h]

theorem C4_amended_witness :
    get_batch_results [⟨"1", "succeeded", "machine learning, deep nets"⟩,
        ⟨"2", "errored", ""⟩, ⟨"3", "succeeded", "transformers here"⟩]
      = get_batch_results [⟨"1", "succeeded", "machine learning, deep nets"⟩]
        ++ (("2", ([] : List String))
          :: get_batch_results [⟨"3", "succeeded", "transformers here"⟩]) :=
  C4_amended [⟨"1", "succeeded", "machine learning, deep nets"⟩]
    [⟨"3", "succeeded", "transformers here"⟩] ⟨"2", "errored", ""⟩ (by decide)

/-- C8: orphan safety.  A result entry whose (parseable) id matches no
stored article only bumps `failed_count`: the loop continues with the
remaining entries on an unchanged store, and for a lone orphan entry the
whole call commits, mutates nothing, and returns `(0, 1)` without raising. -/
theorem C8_orphan_safety (now : Nat) (p : Option String) (s : String)
    (ts : List String) (rest : List (String × List String)) (db : DBState)
    (u f aid : Nat) (hparse : py_int? s = some aid)
    (horphan : find_article db.articles aid = none) :
    apply_results_loop now p ((s, ts) :: rest) db u f
      = apply_results_loop now p rest db u (f + 1)
    ∧ apply_batch_results now p [(s, ts)] db = ⟨db, 0, 1, true⟩ := by
  constructor
  · simp [apply_results_loop, hparse, horphan]
  · simp [apply_batch_results, apply_results_loop, hparse, horphan]

theorem C8_witness :
    apply_results_loop 0 none [("999", ["topic here"])]
        ⟨[⟨1, "t", none, none, false, none⟩], []⟩ 0 0
      = apply_results_loop 0 none []
        ⟨[⟨1, "t", none, none, false, none⟩], []⟩ 0 (0 + 1)
    ∧ apply_batch_results 0 none [("999", ["topic here"])]
        ⟨[⟨1, "t", none, none, false, none⟩], []⟩
      = ⟨⟨[⟨1, "t", none, none, false, none⟩], []⟩, 0, 1, true⟩ :=
  C8_orphan_safety 0 none "999" ["topic here"] []
    ⟨[⟨1, "t", none, none, false, none⟩], []⟩ 0 0 999 (by decide) (by decide)

/-- C10: all-or-nothing persistence.  `apply_batch_results` commits once,
after the whole loop; when the loop raises (modelled by the staged state
coming back `none`, e.g. on an unparseable article id) the session is rolled
back: the returned state is exactly the input state and `committed = false`,
whatever counters had accumulated. -/
theorem C10_single_commit_rollback (now : Nat) (p : Option String)
    (results : List (String × List String)) (db : DBState)
    (h : (apply_results_loop now p results db 0 0).1 = none) :
    (apply_batch_results now p results db).db = db
    ∧ (apply_batch_results now p results db).committed = false := by
  rcases hl : apply_results_loop now p results db 0 0 with ⟨_ | db2, u, f⟩
  · simp [apply_batch_results, hl]
  · rw [hl] at h
    simp at h

lemma create_interest_notification_spec (p : Option String) (a : Article)
    (ns : List Notification) :
    create_interest_notification p a ns
      = if profile_matches p (a.topics.getD []) = true then
          (if has_interest_notif ns a.id = true then (false, ns)
           else (true, ns ++ [⟨a.id, "interest_match"⟩]))
        else (false, ns) := by
  cases p with
  | none => rfl
  | some s =>
    dsimp only [create_interest_notification, profile_matches, has_interest_notif]
    split_ifs <;> first | rfl | simp_all

lemma has_interest_notif_append_self (ns : List Notification) (aid : Nat) :
    has_interest_notif (ns ++ [⟨aid, "interest_match"⟩]) aid = true := by
  simp [has_interest_notif]

/-- C9: notification dedup.  When an `interest_match` record already exists
for the article, the notifier is a no-op; applying the notifier twice leaves
exactly the state of applying it once; a fresh match on a clean store adds
exactly one `interest_match` record; an absent profile — or one whose parsed
interest set is empty — creates nothing. -/
theorem C9_notification_dedup (p : Option String) (a : Article)
    (ns : List Notification) :
    (has_interest_notif ns a.id = true →
        create_interest_notification p a ns = (false, ns))
    ∧ ((create_interest_notification p a
          ((create_interest_notification p a ns).2)).2
        = (create_interest_notification p a ns).2)
    ∧ (profile_matches p (a.topics.getD []) = true →
        has_interest_notif ns a.id = false →
        count_interest_notifs ((create_interest_notification p a ns).2) a.id
          = count_interest_notifs ns a.id + 1)
    ∧ (p = none → create_interest_notification p a ns = (false, ns))
    ∧ (∀ s, p = some s → parse_interests s = [] →
        create_interest_notification p a ns = (false, ns)) := by
  refine ⟨?_, ?_, ?_, ?_, ?_⟩
  · intro h
    rw [create_interest_notification_spec]
    by_cases hpm : profile_matches p (a.topics.getD []) = true <;> simp [hpm, h]
  · by_cases hpm : profile_matches p (a.topics.getD []) = true
    · by_cases hhas : has_interest_notif ns a.id = true
      · simp [create_interest_notification_spec, hpm, hhas]
      · simp only [create_interest_notification_spec, hpm, hhas, if_true, if_false]
        simp [has_interest_notif_append_self]
    · simp [create_interest_notification_spec, hpm]
  · intro hpm hhas
    rw [create_interest_notification_spec]
    simp only [hpm, hhas, if_true, if_false, Bool.false_eq_true]
    simp [count_interest_notifs, List.filter_append]
  · intro h
    subst h
    rfl
  · intro s h hp
    subst h
    rw [create_interest_notification_spec]
    have hpm : profile_matches (some s) (a.topics.getD []) = false := by
      unfold profile_matches
      by_cases h0 : s = "" <;> simp [h0, hp]
    simp [hpm]

theorem C9_witness :
    count_interest_notifs
        ((create_interest_notification (some "ai")
          ⟨3, "t", none, some ["AI", "biology"], true, none⟩ []).2) 3
      = count_interest_notifs [] 3 + 1 :=
  (C9_notification_dedup (some "ai")
      ⟨3, "t", none, some ["AI", "biology"], true, none⟩ []).2.2.1
    (by decide) (by decide)

/-- C6: partial isolation.  With ten unprocessed items and a provider report
of eight successes and two errors, applying the fetched results returns
`(8, 2)`, commits, marks exactly items 1-8 processed, and leaves items 9 and
10 unprocessed and still selected by the next batch-creation query. -/
theorem C6_partial_isolation :
    (apply_batch_results 3 none (get_batch_results c6_entries) c6_db).updated = 8
    ∧ (apply_batch_results 3 none (get_batch_results c6_entries) c6_db).failed = 2
    ∧ (apply_batch_results 3 none (get_batch_results c6_entries) c6_db).committed = true
    ∧ ((apply_batch_results 3 none (get_batch_results c6_entries)
          c6_db).db.articles.filter (fun a => a.processed)).map (fun a => a.id)
        = [1, 2, 3, 4, 5, 6, 7, 8]
    ∧ (select_unprocessed none
        (apply_batch_results 3 none (get_batch_results c6_entries)
          c6_db).db.articles).map (fun a => a.id)
        = [9, 10] := by
  decide

/-- C1 (counterexample): `apply_batch_results` has no `processed` guard.
One unprocessed article and one succeeded result: the first call returns
`updated = 1` and marks the article processed, yet the second call with the
identical result set re-applies it and again returns `updated = 1`, not `0`. -/
theorem C1_counterexample :
    (apply_batch_results 0 none [("1", ["machine learning"])]
        ⟨[⟨1, "t", none, none, false, none⟩], []⟩).updated = 1
    ∧ ((apply_batch_results 0 none [("1", ["machine learning"])]
        ⟨[⟨1, "t", none, none, false, none⟩], []⟩).db.articles.map
          (fun a => a.processed)) = [true]
    ∧ (apply_batch_results 1 none [("1", ["machine learning"])]
        (apply_batch_results 0 none [("1", ["machine learning"])]
          ⟨[⟨1, "t", none, none, false, none⟩], []⟩).db).updated = 1
    ∧ ¬ ((apply_batch_results 1 none [("1", ["machine learning"])]
        (apply_batch_results 0 none [("1", ["machine learning"])]
          ⟨[⟨1, "t", none, none, false, none⟩], []⟩).db).updated = 0) := by
  decide

theorem C10_witness :
    (apply_batch_results 0 none [("1", ["machine learning"]), ("x", ["topic here"])]
        ⟨[⟨1, "t", none, none, false, none⟩], []⟩).db
      = ⟨[⟨1, "t", none, none, false, none⟩], []⟩
    ∧ (apply_batch_results 0 none [("1", ["machine learning"]), ("x", ["topic here"])]
        ⟨[⟨1, "t", none, none, false, none⟩], []⟩).committed = false
    ∧ (apply_batch_results 0 none [("1", ["machine learning"]), ("x", ["topic here"])]
        ⟨[⟨1, "t", none, none, false, none⟩], []⟩).updated = 1 :=
  ⟨(C10_single_commit_rollback 0 none
      [("1", ["machine learning"]), ("x", ["topic here"])]
      ⟨[⟨1, "t", none, none, false, none⟩], []⟩ (by decide)).1,
   (C10_single_commit_rollback 0 none
      [("1", ["machine learning"]), ("x", ["topic here"])]
      ⟨[⟨1, "t", none, none, false, none⟩], []⟩ (by decide)).2,
   by decide⟩

lemma loop_cons_err (now : Nat) (p : Option String) (s : String)
    (ts : List String) (rest : List (String × List String)) (db : DBState)
    (u f : Nat) (hp : py_int? s = none) :
    apply_results_loop now p ((s, ts) :: rest) db u f = (none, u, f) := by
  simp [apply_results_loop, hp]

lemma loop_cons_orphan (now : Nat) (p : Option String) (s : String)
    (ts : List String) (rest : List (String × List String)) (db : DBState)
    (u f aid : Nat) (hp : py_int? s = some aid)
    (hf : find_article db.articles aid = none) :
    apply_results_loop now p ((s, ts) :: rest) db u f
      = apply_results_loop now p rest db u (f + 1) := by
  simp [apply_results_loop, hp, hf]

lemma loop_cons_empty (now : Nat) (p : Option String) (s : String)
    (ts : List String) (rest : List (String × List String)) (db : DBState)
    (u f aid : Nat) (a : Article) (hp : py_int? s = some aid)
    (hf : find_article db.articles aid = some a) (hts : ts.isEmpty = true) :
    apply_results_loop now p ((s, ts) :: rest) db u f
      = apply_results_loop now p rest db u (f + 1) := by
  simp [apply_results_loop, hp, hf, hts]

lemma loop_cons_succ (now : Nat) (p : Option String) (s : String)
    (ts : List String) (rest : List (String × List String)) (db : DBState)
    (u f aid : Nat) (a : Article) (hp : py_int? s = some aid)
    (hf : find_article db.articles aid = some a) (hts : ts.isEmpty = false) :
    apply_results_loop now p ((s, ts) :: rest) db u f
      = apply_results_loop now p rest (apply_step now p db a ts) (u + 1) f := by
  simp [apply_results_loop, hp, hf, hts]

lemma set_article_ids (arts : List Article) (a : Article) :
    (set_article arts a).map (fun b => b.id) = arts.map (fun b => b.id) := by
  induction arts with
  | nil => rfl
  | cons b bs ih =>
    simp only [set_article, List.map_cons]
    by_cases h : b.id = a.id <;> simp [h, ih]

lemma find_article_id : ∀ (arts : List Article) (n : Nat) (a : Article),
    find_article arts n = some a → a.id = n := by
  intro arts n
  induction arts with
  | nil => intro a h; cases h
  | cons b bs ih =>
    intro a h
    simp only [find_article] at h
    by_cases hb : b.id = n
    · rw [if_pos hb] at h
      cases h
      exact hb
    · rw [if_neg hb] at h
      exact ih a h

lemma find_article_isSome_congr :
    ∀ (arts1 arts2 : List Article),
      arts1.map (fun a => a.id) = arts2.map (fun a => a.id) →
      ∀ n, (find_article arts1 n).isSome = (find_article arts2 n).isSome := by
  intro arts1
  induction arts1 with
  | nil =>
    intro arts2 h n
    cases arts2 with
    | nil => rfl
    | cons b bs => simp at h
  | cons a as ih =>
    intro arts2 h n
    cases arts2 with
    | nil => simp at h
    | cons b bs =>
      simp only [List.map_cons, List.cons.injEq] at h
      obtain ⟨h1, h2⟩ := h
      simp only [find_article]
      by_cases hn : a.id = n
      · rw [if_pos hn, if_pos (by rw [← h1]; exact hn)]
        rfl
      · rw [if_neg hn, if_neg (by rw [← h1]; exact hn)]
        exact ih bs h2 n

lemma find_article_set_other (arts : List Article) (x : Article) (n : Nat)
    (h : n ≠ x.id) :
    find_article (set_article arts x) n = find_article arts n := by
  induction arts with
  | nil => rfl
  | cons b bs ih =>
    simp only [set_article, find_article]
    by_cases hb : b.id = x.id
    · rw [if_pos hb]
      have hxn : ¬ (x.id = n) := fun hh => h hh.symm
      have hbn : ¬ (b.id = n) := by rw [hb]; exact hxn
      simp only [find_article, if_neg hxn, if_neg hbn]
      exact ih
    · rw [if_neg hb]
      by_cases hn : b.id = n
      · simp only [find_article, if_pos hn]
      · simp only [find_article, if_neg hn]
        exact ih

lemma find_article_set_same : ∀ (arts : List Article) (x : Article) (n : Nat),
    x.id = n → (find_article arts n).isSome = true →
    find_article (set_article arts x) n = some x := by
  intro arts x n hx
  induction arts with
  | nil => intro h; cases h
  | cons b bs ih =>
    intro h
    simp only [find_article] at h
    simp only [set_article, find_article]
    by_cases hb : b.id = n
    · have hbx : b.id = x.id := by rw [hb, hx]
      rw [if_pos hbx]
      simp only [find_article, if_pos hx]
    · rw [if_neg hb] at h
      by_cases hbx : b.id = x.id
      · rw [if_pos hbx]
        simp only [find_article, if_pos hx]
      · rw [if_neg hbx]
        simp only [find_article, if_neg hb]
        exact ih h

lemma apply_results_loop_ids (now : Nat) (p : Option String) :
    ∀ (results : List (String × List String)) (db : DBState) (u f : Nat)
      (db2 : DBState) (u2 f2 : Nat),
      apply_results_loop now p results db u f = (some db2, u2, f2) →
      db2.articles.map (fun a => a.id) = db.articles.map (fun a => a.id) := by
  intro results
  induction results with
  | nil =>
    intro db u f db2 u2 f2 h
    simp only [apply_results_loop, Prod.mk.injEq, Option.some.injEq] at h
    obtain ⟨h1, h2, h3⟩ := h
    rw [← h1]
  | cons r rest ih =>
    obtain ⟨s, ts⟩ := r
    intro db u f db2 u2 f2 h
    cases hp : py_int? s with
    | none =>
      rw [loop_cons_err now p s ts rest db u f hp] at h
      simp at h
    | some aid =>
      cases hf : find_article db.articles aid with
      | none =>
        rw [loop_cons_orphan now p s ts rest db u f aid hp hf] at h
        exact ih db u (f + 1) db2 u2 f2 h
      | some a =>
        cases hts : ts.isEmpty with
        | true =>
          rw [loop_cons_empty now p s ts rest db u f aid a hp hf hts] at h
          exact ih db u (f + 1) db2 u2 f2 h
        | false =>
          rw [loop_cons_succ now p s ts rest db u f aid a hp hf hts] at h
          have h2 := ih (apply_step now p db a ts) (u + 1) f db2 u2 f2 h
          rw [h2]
          exact set_article_ids db.articles (updated_article now a ts)

lemma apply_results_loop_counts (now now2 : Nat) (p p2 : Option String) :
    ∀ (results : List (String × List String)) (db db2 : DBState) (u f : Nat),
      db.articles.map (fun a => a.id) = db2.articles.map (fun a => a.id) →
      (apply_results_loop now p results db u f).2
          = (apply_results_loop now2 p2 results db2 u f).2
      ∧ (apply_results_loop now p results db u f).1.isSome
          = (apply_results_loop now2 p2 results db2 u f).1.isSome := by
  intro results
  induction results with
  | nil => intro db db2 u f h; exact ⟨rfl, rfl⟩
  | cons r rest ih =>
    obtain ⟨s, ts⟩ := r
    intro db db2 u f h
    cases hp : py_int? s with
    | none =>
      rw [loop_cons_err now p s ts rest db u f hp,
          loop_cons_err now2 p2 s ts rest db2 u f hp]
      exact ⟨rfl, rfl⟩
    | some aid =>
      have hfs : (find_article db.articles aid).isSome
          = (find_article db2.articles aid).isSome :=
        find_article_isSome_congr db.articles db2.articles h aid
      cases hf1 : find_article db.articles aid with
      | none =>
        have hf2 : find_article db2.articles aid = none := by
          rw [hf1] at hfs
          cases hcase : find_article db2.articles aid with
          | none => rfl
          | some b => rw [hcase] at hfs; simp at hfs
        rw [loop_cons_orphan now p s ts rest db u f aid hp hf1,
            loop_cons_orphan now2 p2 s ts rest db2 u f aid hp hf2]
        exact ih db db2 u (f + 1) h
      | some a1 =>
        have hex : ∃ a2, find_article db2.articles aid = some a2 := by
          rw [hf1] at hfs
          cases hcase : find_article db2.articles aid with
          | none => rw [hcase] at hfs; simp at hfs
          | some b => exact ⟨b, rfl⟩
        obtain ⟨a2, hf2⟩ := hex
        cases hts : ts.isEmpty with
        | true =>
          rw [loop_cons_empty now p s ts rest db u f aid a1 hp hf1 hts,
              loop_cons_empty now2 p2 s ts rest db2 u f aid a2 hp hf2 hts]
          exact ih db db2 u (f + 1) h
        | false =>
          rw [loop_cons_succ now p s ts rest db u f aid a1 hp hf1 hts,
              loop_cons_succ now2 p2 s ts rest db2 u f aid a2 hp hf2 hts]
          apply ih
          show (set_article db.articles _).map _ = (set_article db2.articles _).map _
          rw [set_article_ids, set_article_ids]
          exact h

lemma cin_has_mono (p : Option String) (a : Article) (ns : List Notification)
    (aid : Nat) (h : has_interest_notif ns aid = true) :
    has_interest_notif ((create_interest_notification p a ns).2) aid = true := by
  rw [create_interest_notification_spec]
  split_ifs
  · exact h
  · simp only [has_interest_notif, List.any_append] at h ⊢
    rw [h]
    rfl
  · exact h

lemma loop_has_mono (now : Nat) (p : Option String) :
    ∀ (results : List (String × List String)) (db : DBState) (u f : Nat)
      (db2 : DBState) (u2 f2 : Nat) (aid : Nat),
      apply_results_loop now p results db u f = (some db2, u2, f2) →
      has_interest_notif db.notifs aid = true →
      has_interest_notif db2.notifs aid = true := by
  intro results
  induction results with
  | nil =>
    intro db u f db2 u2 f2 aid h hh
    simp only [apply_results_loop, Prod.mk.injEq, Option.some.injEq] at h
    rw [← h.1]
    exact hh
  | cons r rest ih =>
    obtain ⟨s, ts⟩ := r
    intro db u f db2 u2 f2 aid h hh
    cases hp : py_int? s with
    | none =>
      rw [loop_cons_err now p s ts rest db u f hp] at h
      simp at h
    | some aid2 =>
      cases hf : find_article db.articles aid2 with
      | none =>
        rw [loop_cons_orphan now p s ts rest db u f aid2 hp hf] at h
        exact ih db u (f + 1) db2 u2 f2 aid h hh
      | some a =>
        cases hts : ts.isEmpty with
        | true =>
          rw [loop_cons_empty now p s ts rest db u f aid2 a hp hf hts] at h
          exact ih db u (f + 1) db2 u2 f2 aid h hh
        | false =>
          rw [loop_cons_succ now p s ts rest db u f aid2 a hp hf hts] at h
          exact ih (apply_step now p db a ts) (u + 1) f db2 u2 f2 aid h
            (cin_has_mono p (updated_article now a ts) db.notifs aid hh)

lemma loop_untouched (now : Nat) (p : Option String) :
    ∀ (results : List (String × List String)) (db : DBState) (u f : Nat)
      (db2 : DBState) (u2 f2 : Nat) (aid : Nat),
      aid ∉ parsed_ids results →
      apply_results_loop now p results db u f = (some db2, u2, f2) →
      find_article db2.articles aid = find_article db.articles aid := by
  intro results
  induction results with
  | nil =>
    intro db u f db2 u2 f2 aid hmem h
    simp only [apply_results_loop, Prod.mk.injEq, Option.some.injEq] at h
    rw [← h.1]
  | cons r rest ih =>
    obtain ⟨s, ts⟩ := r
    intro db u f db2 u2 f2 aid hmem h
    cases hp : py_int? s with
    | none =>
      rw [loop_cons_err now p s ts rest db u f hp] at h
      simp at h
    | some aid2 =>
      have hmem2 : aid ∉ parsed_ids rest ∧ aid ≠ aid2 := by
        simp only [parsed_ids, hp, List.mem_cons] at hmem
        push_neg at hmem
        exact ⟨hmem.2, hmem.1⟩
      cases hf : find_article db.articles aid2 with
      | none =>
        rw [loop_cons_orphan now p s ts rest db u f aid2 hp hf] at h
        exact ih db u (f + 1) db2 u2 f2 aid hmem2.1 h
      | some a =>
        cases hts : ts.isEmpty with
        | true =>
          rw [loop_cons_empty now p s ts rest db u f aid2 a hp hf hts] at h
          exact ih db u (f + 1) db2 u2 f2 aid hmem2.1 h
        | false =>
          rw [loop_cons_succ now p s ts rest db u f aid2 a hp hf hts] at h
          have hstep := ih (apply_step now p db a ts) (u + 1) f db2 u2 f2 aid
            hmem2.1 h
          rw [hstep]
          have hxid : (updated_article now a ts).id = aid2 := by
            show a.id = aid2
            exact find_article_id db.articles aid2 a hf
          apply find_article_set_other
          rw [hxid]
          exact hmem2.2

lemma AppliedFor_tail (p : Option String) (r : String × List String)
    (results : List (String × List String)) (db : DBState)
    (h : AppliedFor p (r :: results) db) : AppliedFor p results db :=
  fun s ts aid a hmem => h s ts aid a (List.mem_cons_of_mem r hmem)

lemma updated_article_sans (now : Nat) (a : Article) (ts : List String)
    (h1 : a.topics = some ts) (h2 : a.processed = true) :
    article_sans_date (updated_article now a ts) = article_sans_date a := by
  obtain ⟨i, t, ab, tp, pr, pd⟩ := a
  simp only [article_sans_date, updated_article] at h1 h2 ⊢
  simp_all

lemma set_article_no_match : ∀ (arts : List Article) (x : Article),
    (∀ c ∈ arts, c.id ≠ x.id) → set_article arts x = arts := by
  intro arts x
  induction arts with
  | nil => intro h; rfl
  | cons b bs ih =>
    intro h
    simp only [set_article]
    rw [if_neg (h b (List.mem_cons_self b bs)),
        ih (fun c hc => h c (List.mem_cons_of_mem b hc))]

lemma set_article_sans : ∀ (arts : List Article) (x a : Article) (n : Nat),
    (arts.map (fun c => c.id)).Nodup →
    find_article arts n = some a → x.id = n →
    article_sans_date x = article_sans_date a →
    (set_article arts x).map article_sans_date = arts.map article_sans_date := by
  intro arts
  induction arts with
  | nil => intro x a n hnd hf hx hs; cases hf
  | cons b bs ih =>
    intro x a n hnd hf hx hs
    simp only [List.map_cons, List.nodup_cons] at hnd
    simp only [find_article] at hf
    simp only [set_article, List.map_cons]
    by_cases hb : b.id = n
    · rw [if_pos hb] at hf
      have hba : b = a := Option.some.inj hf
      have hbx : b.id = x.id := by rw [hb, ← hx]
      rw [if_pos hbx]
      have hsx : article_sans_date x = article_sans_date b := by rw [hs, ← hba]
      have hset : set_article bs x = bs := by
        apply set_article_no_match
        intro c hc hcx
        apply hnd.1
        rw [hbx, ← hcx]
        exact List.mem_map_of_mem (fun d => d.id) hc
      rw [hset, hsx]
    · rw [if_neg hb] at hf
      have hbx : ¬ (b.id = x.id) := fun hh => hb (by rw [hh, hx])
      rw [if_neg hbx, ih x a n hnd.2 hf hx hs]

lemma loop_applied (now : Nat) (p : Option String) :
    ∀ (results : List (String × List String)) (db : DBState) (u f : Nat)
      (db2 : DBState) (u2 f2 : Nat),
      (parsed_ids results).Nodup →
      apply_results_loop now p results db u f = (some db2, u2, f2) →
      AppliedFor p results db2 := by
  intro results
  induction results with
  | nil =>
    intro db u f db2 u2 f2 hnd h
    intro s ts aid a hmem
    exact absurd hmem (List.not_mem_nil _)
  | cons r rest ih =>
    obtain ⟨s, ts⟩ := r
    intro db u f db2 u2 f2 hnd h
    cases hp : py_int? s with
    | none =>
      rw [loop_cons_err now p s ts rest db u f hp] at h
      simp at h
    | some aid0 =>
      have hndc : aid0 ∉ parsed_ids rest ∧ (parsed_ids rest).Nodup := by
        have hpi : parsed_ids ((s, ts) :: rest) = aid0 :: parsed_ids rest := by
          simp [parsed_ids, hp]
        rw [hpi] at hnd
        exact ⟨(List.nodup_cons.mp hnd).1, (List.nodup_cons.mp hnd).2⟩
      cases hf : find_article db.articles aid0 with
      | none =>
        rw [loop_cons_orphan now p s ts rest db u f aid0 hp hf] at h
        have happ := ih db u (f + 1) db2 u2 f2 hndc.2 h
        intro s2 ts2 aid2 a2 hmem hp2 hts2 hfind2
        rcases List.mem_cons.mp hmem with heq | hmem2
        · have hs : s2 = s := congrArg Prod.fst heq
          subst hs
          rw [hp] at hp2
          have haid : aid2 = aid0 := (Option.some.inj hp2).symm
          subst haid
          have hun := loop_untouched now p rest db u (f + 1) db2 u2 f2 aid2
            hndc.1 h
          rw [hun, hf] at hfind2
          cases hfind2
        · exact happ s2 ts2 aid2 a2 hmem2 hp2 hts2 hfind2
      | some a =>
        cases hts : ts.isEmpty with
        | true =>
          rw [loop_cons_empty now p s ts rest db u f aid0 a hp hf hts] at h
          have happ := ih db u (f + 1) db2 u2 f2 hndc.2 h
          intro s2 ts2 aid2 a2 hmem hp2 hts2 hfind2
          rcases List.mem_cons.mp hmem with heq | hmem2
          · have hts3 : ts2 = ts := congrArg Prod.snd heq
            rw [hts3, hts] at hts2
            cases hts2
          · exact happ s2 ts2 aid2 a2 hmem2 hp2 hts2 hfind2
        | false =>
          rw [loop_cons_succ now p s ts rest db u f aid0 a hp hf hts] at h
          have happ := ih (apply_step now p db a ts) (u + 1) f db2 u2 f2
            hndc.2 h
          intro s2 ts2 aid2 a2 hmem hp2 hts2 hfind2
          rcases List.mem_cons.mp hmem with heq | hmem2
          · have hs : s2 = s := congrArg Prod.fst heq
            have hts3 : ts2 = ts := congrArg Prod.snd heq
            subst hs
            subst hts3
            rw [hp] at hp2
            have haid : aid2 = aid0 := (Option.some.inj hp2).symm
            subst haid
            have hxid : (updated_article now a ts2).id = aid2 := by
              show a.id = aid2
              exact find_article_id db.articles aid2 a hf
            have hf2 : find_article (apply_step now p db a ts2).articles aid2
                = some (updated_article now a ts2) := by
              show find_article (set_article db.articles
                (updated_article now a ts2)) aid2 = _
              apply find_article_set_same db.articles
                (updated_article now a ts2) aid2 hxid
              rw [hf]
              rfl
            have hun := loop_untouched now p rest (apply_step now p db a ts2)
              (u + 1) f db2 u2 f2 aid2 hndc.1 h
            rw [hun, hf2] at hfind2
            have ha2 : a2 = updated_article now a ts2 :=
              (Option.some.inj hfind2).symm
            refine ⟨by rw [ha2]; rfl, by rw [ha2]; rfl, ?_⟩
            intro hpm
            have hhas : has_interest_notif
                (apply_step now p db a ts2).notifs aid2 = true := by
              show has_interest_notif ((create_interest_notification p
                (updated_article now a ts2) db.notifs).2) aid2 = true
              rw [create_interest_notification_spec]
              rw [show (updated_article now a ts2).topics.getD [] = ts2 from rfl]
              rw [if_pos hpm]
              by_cases hhas0 : has_interest_notif db.notifs
                  ((updated_article now a ts2).id) = true
              · rw [if_pos hhas0]
                rw [hxid] at hhas0
                exact hhas0
              · rw [if_neg hhas0]
                rw [hxid]
                exact has_interest_notif_append_self db.notifs aid2
            exact loop_has_mono now p rest (apply_step now p db a ts2) (u + 1)
              f db2 u2 f2 aid2 h hhas
          · exact happ s2 ts2 aid2 a2 hmem2 hp2 hts2 hfind2

lemma loop_applied_noop (now : Nat) (p : Option String) :
    ∀ (results : List (String × List String)) (db : DBState) (u f : Nat)
      (db2 : DBState) (u2 f2 : Nat),
      AppliedFor p results db →
      (db.articles.map (fun c => c.id)).Nodup →
      apply_results_loop now p results db u f = (some db2, u2, f2) →
      db2.notifs = db.notifs ∧
      db2.articles.map article_sans_date = db.articles.map article_sans_date := by
  intro results
  induction results with
  | nil =>
    intro db u f db2 u2 f2 happ hnd h
    simp only [apply_results_loop, Prod.mk.injEq, Option.some.injEq] at h
    rw [← h.1]
    exact ⟨rfl, rfl⟩
  | cons r rest ih =>
    obtain ⟨s, ts⟩ := r
    intro db u f db2 u2 f2 happ hnd h
    cases hp : py_int? s with
    | none =>
      rw [loop_cons_err now p s ts rest db u f hp] at h
      simp at h
    | some aid0 =>
      cases hf : find_article db.articles aid0 with
      | none =>
        rw [loop_cons_orphan now p s ts rest db u f aid0 hp hf] at h
        exact ih db u (f + 1) db2 u2 f2
          (AppliedFor_tail p (s, ts) rest db happ) hnd h
      | some a =>
        cases hts : ts.isEmpty with
        | true =>
          rw [loop_cons_empty now p s ts rest db u f aid0 a hp hf hts] at h
          exact ih db u (f + 1) db2 u2 f2
            (AppliedFor_tail p (s, ts) rest db happ) hnd h
        | false =>
          rw [loop_cons_succ now p s ts rest db u f aid0 a hp hf hts] at h
          have hhead := happ s ts aid0 a (List.mem_cons_self _ _) hp hts hf
          have hxid : (updated_article now a ts).id = aid0 := by
            show a.id = aid0
            exact find_article_id db.articles aid0 a hf
          have hsans : article_sans_date (updated_article now a ts)
              = article_sans_date a :=
            updated_article_sans now a ts hhead.1 hhead.2.1
          have hnotifs : (apply_step now p db a ts).notifs = db.notifs := by
            show (create_interest_notification p (updated_article now a ts)
              db.notifs).2 = db.notifs
            rw [create_interest_notification_spec]
            rw [show (updated_article now a ts).topics.getD [] = ts from rfl]
            by_cases hpm : profile_matches p ts = true
            · rw [if_pos hpm]
              have hhas : has_interest_notif db.notifs
                  ((updated_article now a ts).id) = true := by
                rw [hxid]
                exact hhead.2.2 hpm
              rw [if_pos hhas]
            · rw [if_neg hpm]
          have harts : (apply_step now p db a ts).articles.map article_sans_date
              = db.articles.map article_sans_date := by
            show (set_article db.articles (updated_article now a ts)).map
              article_sans_date = _
            exact set_article_sans db.articles (updated_article now a ts) a
              aid0 hnd hf hxid hsans
          have hids : (apply_step now p db a ts).articles.map (fun c => c.id)
              = db.articles.map (fun c => c.id) := by
            show (set_article db.articles _).map _ = _
            exact set_article_ids db.articles (updated_article now a ts)
          have hnd2 : ((apply_step now p db a ts).articles.map
              (fun c => c.id)).Nodup := by
            rw [hids]
            exact hnd
          have happ2 : AppliedFor p rest (apply_step now p db a ts) := by
            intro s2 ts2 aid2 a2 hmem hp2 hts2 hfind2
            by_cases haid : aid2 = aid0
            · subst haid
              have hf2 : find_article (apply_step now p db a ts).articles aid2
                  = some (updated_article now a ts) := by
                show find_article (set_article db.articles
                  (updated_article now a ts)) aid2 = _
                apply find_article_set_same db.articles
                  (updated_article now a ts) aid2 hxid
                rw [hf]
                rfl
              rw [hf2] at hfind2
              have ha2 : a2 = updated_article now a ts :=
                (Option.some.inj hfind2).symm
              have horig := happ s2 ts2 aid2 a
                (List.mem_cons_of_mem _ hmem) hp2 hts2 hf
              have htseq : ts2 = ts := by
                have h1 := horig.1
                rw [hhead.1] at h1
                exact (Option.some.inj h1).symm
              refine ⟨?_, ?_, ?_⟩
              · rw [ha2, htseq]
                rfl
              · rw [ha2]
                rfl
              · intro hpm2
                rw [hnotifs]
                exact horig.2.2 hpm2
            · have hf2 : find_article (apply_step now p db a ts).articles aid2
                  = find_article db.articles aid2 := by
                show find_article (set_article db.articles
                  (updated_article now a ts)) aid2 = _
                apply find_article_set_other
                rw [hxid]
                exact haid
              rw [hf2] at hfind2
              have horig := happ s2 ts2 aid2 a2
                (List.mem_cons_of_mem _ hmem) hp2 hts2 hfind2
              refine ⟨horig.1, horig.2.1, ?_⟩
              intro hpm2
              rw [hnotifs]
              exact horig.2.2 hpm2
          have hih := ih (apply_step now p db a ts) (u + 1) f db2 u2 f2
            happ2 hnd2 h
          constructor
          · rw [hih.1, hnotifs]
          · rw [hih.2, harts]

/-- C1 (amended): `apply_batch_results` has no `processed` guard, so a second
call with identical results does NOT skip already-applied items or return
`updated = 0`; instead it re-applies every succeeded entry.  What does hold,
for any store with unique article ids and any result set with pairwise
distinct (parseable) keys: the second call returns exactly the same
`(updated, failed)` counters and commit outcome as the first, creates no new
notification (the dedup check finds the record the first call made), and
leaves every article row unchanged except for a refreshed
`processing_date`. -/
theorem C1_amended (now1 now2 : Nat) (p : Option String)
    (results : List (String × List String)) (db : DBState)
    (hids : (db.articles.map (fun c => c.id)).Nodup)
    (hkeys : (parsed_ids results).Nodup) :
    (apply_batch_results now2 p results
        (apply_batch_results now1 p results db).db).updated
      = (apply_batch_results now1 p results db).updated
    ∧ (apply_batch_results now2 p results
        (apply_batch_results now1 p results db).db).failed
      = (apply_batch_results now1 p results db).failed
    ∧ (apply_batch_results now2 p results
        (apply_batch_results now1 p results db).db).committed
      = (apply_batch_results now1 p results db).committed
    ∧ (apply_batch_results now2 p results
        (apply_batch_results now1 p results db).db).db.notifs
      = (apply_batch_results now1 p results db).db.notifs
    ∧ (apply_batch_results now2 p results
        (apply_batch_results now1 p results db).db).db.articles.map
          article_sans_date
      = (apply_batch_results now1 p results db).db.articles.map
          article_sans_date := by
  rcases h1 : apply_results_loop now1 p results db 0 0 with ⟨o1, u1, f1⟩
  cases o1 with
  | none =>
    have hr1 : apply_batch_results now1 p results db = ⟨db, u1, f1, false⟩ := by
      simp [apply_batch_results, h1]
    have hc := apply_results_loop_counts now2 now1 p p results db db 0 0 rfl
    rcases h2 : apply_results_loop now2 p results db 0 0 with ⟨o2, u2, f2⟩
    rw [h1, h2] at hc
    have hcounts : (u2, f2) = (u1, f1) := hc.1
    have ho2 : o2 = none := by
      cases o2 with
      | none => rfl
      | some d => exact absurd hc.2 (by simp)
    subst ho2
    have hr2 : apply_batch_results now2 p results db = ⟨db, u2, f2, false⟩ := by
      simp [apply_batch_results, h2]
    rw [hr1]
    show (apply_batch_results now2 p results db).updated = u1 ∧ _
    rw [hr2]
    have hu : u2 = u1 := congrArg Prod.fst hcounts
    have hff : f2 = f1 := congrArg Prod.snd hcounts
    exact ⟨hu, hff, rfl, rfl, rfl⟩
  | some db1 =>
    have hr1 : apply_batch_results now1 p results db = ⟨db1, u1, f1, true⟩ := by
      simp [apply_batch_results, h1]
    have hidseq : db1.articles.map (fun c => c.id)
        = db.articles.map (fun c => c.id) :=
      apply_results_loop_ids now1 p results db 0 0 db1 u1 f1 h1
    have hc := apply_results_loop_counts now2 now1 p p results db1 db 0 0 hidseq
    rcases h2 : apply_results_loop now2 p results db1 0 0 with ⟨o2, u2, f2⟩
    rw [h1, h2] at hc
    cases o2 with
    | none => exact absurd hc.2 (by simp)
    | some db2 =>
      have hcounts : (u2, f2) = (u1, f1) := hc.1
      have happ := loop_applied now1 p results db 0 0 db1 u1 f1 hkeys h1
      have hnd1 : (db1.articles.map (fun c => c.id)).Nodup := by
        rw [hidseq]
        exact hids
      have hnoop := loop_applied_noop now2 p results db1 0 0 db2 u2 f2
        happ hnd1 h2
      have hr2 : apply_batch_results now2 p results db1 = ⟨db2, u2, f2, true⟩ := by
        simp [apply_batch_results, h2]
      rw [hr1]
      show (apply_batch_results now2 p results db1).updated = u1 ∧ _
      rw [hr2]
      have hu : u2 = u1 := congrArg Prod.fst hcounts
      have hff : f2 = f1 := congrArg Prod.snd hcounts
      exact ⟨hu, hff, rfl, hnoop.1, hnoop.2⟩

theorem C1_amended_witness :
    (apply_batch_results 4 none [("1", ["machine learning"]), ("7", ["alpha beta"])]
        (apply_batch_results 3 none [("1", ["machine learning"]), ("7", ["alpha beta"])]
          ⟨[⟨1, "t", none, none, false, none⟩, ⟨2, "t2", none, none, false, none⟩],
           []⟩).db).updated
      = (apply_batch_results 3 none [("1", ["machine learning"]), ("7", ["alpha beta"])]
          ⟨[⟨1, "t", none, none, false, none⟩, ⟨2, "t2", none, none, false, none⟩],
           []⟩).updated
    ∧ (apply_batch_results 4 none [("1", ["machine learning"]), ("7", ["alpha beta"])]
        (apply_batch_results 3 none [("1", ["machine learning"]), ("7", ["alpha beta"])]
          ⟨[⟨1, "t", none, none, false, none⟩, ⟨2, "t2", none, none, false, none⟩],
           []⟩).db).failed
      = (apply_batch_results 3 none [("1", ["machine learning"]), ("7", ["alpha beta"])]
          ⟨[⟨1, "t", none, none, false, none⟩, ⟨2, "t2", none, none, false, none⟩],
           []⟩).failed
    ∧ (apply_batch_results 4 none [("1", ["machine learning"]), ("7", ["alpha beta"])]
        (apply_batch_results 3 none [("1", ["machine learning"]), ("7", ["alpha beta"])]
          ⟨[⟨1, "t", none, none, false, none⟩, ⟨2, "t2", none, none, false, none⟩],
           []⟩).db).committed
      = (apply_batch_results 3 none [("1", ["machine learning"]), ("7", ["alpha beta"])]
          ⟨[⟨1, "t", none, none, false, none⟩, ⟨2, "t2", none, none, false, none⟩],
           []⟩).committed
    ∧ (apply_batch_results 4 none [("1", ["machine learning"]), ("7", ["alpha beta"])]
        (apply_batch_results 3 none [("1", ["machine learning"]), ("7", ["alpha beta"])]
          ⟨[⟨1, "t", none, none, false, none⟩, ⟨2, "t2", none, none, false, none⟩],
           []⟩).db).db.notifs
      = (apply_batch_results 3 none [("1", ["machine learning"]), ("7", ["alpha beta"])]
          ⟨[⟨1, "t", none, none, false, none⟩, ⟨2, "t2", none, none, false, none⟩],
           []⟩).db.notifs
    ∧ (apply_batch_results 4 none [("1", ["machine learning"]), ("7", ["alpha beta"])]
        (apply_batch_results 3 none [("1", ["machine learning"]), ("7", ["alpha beta"])]
          ⟨[⟨1, "t", none, none, false, none⟩, ⟨2, "t2", none, none, false, none⟩],
           []⟩).db).db.articles.map article_sans_date
      = (apply_batch_results 3 none [("1", ["machine learning"]), ("7", ["alpha beta"])]
          ⟨[⟨1, "t", none, none, false, none⟩, ⟨2, "t2", none, none, false, none⟩],
           []⟩).db.articles.map article_sans_date :=
  C1_amended 3 4 none [("1", ["machine learning"]), ("7", ["alpha beta"])]
    ⟨[⟨1, "t", none, none, false, none⟩, ⟨2, "t2", none, none, false, none⟩], []⟩
    (by decide) (by decide)
